import Mathlib

/-!
# Scale-from-zero gate of the gateway: `gateway/handlers/scaling.go`

A shallow embedding of `getNamespace` and of the handler returned by
`MakeScalingHandler`, followed by the properties proved about them.

Conventions of the embedding.

* A Go `string` is a Lean `String`; positions count the elements of
  `String.data`.  The only separator searched for is the one-byte `'.'`,
  so cutting at a position of the character sequence and cutting at the
  byte offset of the same `'.'` give the same pieces.
* A Go `error` value is `Option String`: `none` is `nil`, `some t` is an
  error whose `Error()` text is `t`.
* A run-time panic (slice out of range, method call through a nil
  interface) is the `none` / `Except.error` result.
* The effects of one request are recorded in order as a list of `Event`s.
-/

set_option linter.unusedVariables false

namespace Scaling

/-! ## Strings -/

/-- Scan of `strings.LastIndex` for a one-byte separator: the greatest
position below `n` that holds `c`, or `-1`. -/
def lastIndexBelow (s : List Char) (c : Char) : Nat → Int
  | 0 => -1
  | i + 1 => if s[i]? = some c then (i : Int) else lastIndexBelow s c i

/-- Go `strings.LastIndex(s, string(c))`: the index of the last `c` in `s`,
or `-1` when `s` holds none. -/
def LastIndex (s : String) (c : Char) : Int :=
  lastIndexBelow s.data c s.data.length

/-- Go slice expression `s[lo:hi]`; `none` is the out-of-range panic. -/
def slice (s : String) (lo hi : Int) : Option String :=
  if 0 ≤ lo ∧ lo ≤ hi ∧ hi ≤ (s.data.length : Int) then
    some ⟨(s.data.take hi.toNat).drop lo.toNat⟩
  else
    none

/-- Source `getNamespace` (scaling.go, lines 16-21). -/
def getNamespace (defaultNamespace fullName : String) : Option (String × String) :=
  let index := LastIndex fullName '.'
  if index > -1 then
    match slice fullName 0 index, slice fullName (index + 1) (fullName.data.length : Int) with
    | some functionName, some namespace_ => some (functionName, namespace_)
    | _, _ => none
  else
    some (fullName, defaultNamespace)

/-! ## Collaborators of the handler -/

/-- Modelled from the spec: the declaration of the value returned by
`scaler.Scale` is not in the source file.  The spec's `ScaleOutcome`
`{available, found, error, duration}`, with the field names the handler
reads (`res.Available`, `res.Found`, `res.Error`, `res.Duration`);
`Duration` is a `time.Duration`, a count of nanoseconds. -/
structure ScaleOutcome where
  Available : Bool
  Found : Bool
  Error : Option String
  Duration : Int
deriving DecidableEq, Repr

/-- Modelled from the spec: the declaration of `scaling.ScalingConfig` is not
in the source file.  The spec's `ScalingPolicy`
`{maxAttempts: integer ≥ 1, retryDelay: time-span}`. -/
structure ScalingConfig where
  maxAttempts : Nat
  retryDelay : Int
deriving DecidableEq, Repr

/-- The scaler capability `scaling.FunctionScaler`: an external, stateful
collaborator.  `Scale` takes the scaler's state and the identity asked for,
and gives the outcome and the scaler's next state. -/
structure FunctionScaler (σ : Type) where
  Scale : σ → String → String → ScaleOutcome × σ

/-- An argument of a `log.Printf` call, kept unformatted. -/
inductive Arg where
  | str (s : String)
  | int (n : Int)
  | seconds (d : Int)
deriving DecidableEq, Repr

/-- One observable effect of the handler.  `W` is the type of response
writers, `R` of requests and `H` of downstream handlers. -/
inductive Event (W R H : Type) where
  | Scale (functionName namespace_ : String) (res : ScaleOutcome)
  | Sleep (d : Int)
  | Printf (format : String) (args : List Arg)
  | WriteHeader (w : W) (statusCode : Nat)
  | Write (w : W) (body : String)
  | ServeHTTP (next : H) (w : W) (r : R)
deriving DecidableEq, Repr

/-- What one call of the handler did: its effects in order, the scaler's
state afterwards, and whether it returned (`ok`) or panicked (`error`). -/
structure Run (W R H σ : Type) where
  events : List (Event W R H)
  scaler : σ
  result : Except String Unit

/-- Go `time.Millisecond`, in nanoseconds. -/
def Millisecond : Int := 1000000

/-- Go `http.StatusNotFound`. -/
def StatusNotFound : Nat := 404

/-- Go `http.StatusInternalServerError`. -/
def StatusInternalServerError : Nat := 500

/-- Text of the Go run-time panic raised by `res.Error.Error()` on a nil
`Error`. -/
def nilDereference : String :=
  "runtime error: invalid memory address or nil pointer dereference"

/-- Text of the Go run-time panic of a slice expression out of range. -/
def sliceOutOfRange : String := "runtime error: slice bounds out of range"

/-- Go `fmt.Sprintf("error finding function %s.%s: %s", functionName,
namespace, text)` (scaling.go, lines 46 and 55). -/
def errStr (functionName namespace_ text : String) : String :=
  "error finding function " ++ functionName ++ "." ++ namespace_ ++ ": " ++ text

section Handler

variable {W R H σ : Type}

/-- The `for tryChance := 9; tryChance > 0; tryChance--` loop of the handler
(scaling.go, lines 35-43), started at `tryChance` with the latest outcome
`res` and the scaler state `s`.  Gives the outcome held when the loop is
left, the scaler state, and the effects of the loop. -/
def retryLoop (scaler : FunctionScaler σ) (functionName namespace_ : String) :
    Nat → ScaleOutcome → σ → ScaleOutcome × σ × List (Event W R H)
  | 0, res, s => (res, s, [])
  | tryChance + 1, res, s =>
    if !res.Available then
      let again := scaler.Scale s functionName namespace_
      let rest := retryLoop scaler functionName namespace_ tryChance again.1 again.2
      (rest.1, rest.2.1,
        Event.Sleep (Millisecond * 5000)
          :: Event.Printf "Function unavailabel after scale, but I still get %d more chances to try"
               [Arg.int ((tryChance + 1 : Nat) : Int)]
          :: Event.Scale functionName namespace_ again.1
          :: rest.2.2)
    else
      (res, s, [])

/-- The part of the handler after the loop (scaling.go, lines 45-68): the
effects and the result decided by the outcome `res` the loop ended with. -/
def respond (next : H) (w : W) (r : R) (functionName namespace_ : String)
    (res : ScaleOutcome) : List (Event W R H) × Except String Unit :=
  if !res.Found then
    match res.Error with
    | none => ([], Except.error nilDereference)
    | some text =>
      ([Event.Printf "Scaling: %s\n" [Arg.str (errStr functionName namespace_ text)],
        Event.WriteHeader w StatusNotFound,
        Event.Write w (errStr functionName namespace_ text)], Except.ok ())
  else
    match res.Error with
    | some text =>
      ([Event.Printf "Scaling: %s\n" [Arg.str (errStr functionName namespace_ text)],
        Event.WriteHeader w StatusInternalServerError,
        Event.Write w (errStr functionName namespace_ text)], Except.ok ())
    | none =>
      if res.Available then
        ([Event.ServeHTTP next w r], Except.ok ())
      else
        ([Event.Printf "[Scale] function=%s.%s 0=>N timed-out after %fs\n"
            [Arg.str functionName, Arg.str namespace_, Arg.seconds res.Duration]],
          Except.ok ())

/-- Source `MakeScalingHandler` (scaling.go, lines 28-70): the handler it
returns, run on the response writer `w` and the request `r` with the scaler
in state `s`.  `getServiceName` is a function of the package that is not in
the source file and `url r` stands for `r.URL.String()`; both are
parameters. -/
def MakeScalingHandler (next : H) (scaler : FunctionScaler σ) (config : ScalingConfig)
    (defaultNamespace : String) (getServiceName : String → String) (url : R → String)
    (w : W) (r : R) (s : σ) : Run W R H σ :=
  match getNamespace defaultNamespace (getServiceName (url r)) with
  | none => { events := [], scaler := s, result := Except.error sliceOutOfRange }
  | some (functionName, namespace_) =>
    let first := scaler.Scale s functionName namespace_
    let looped := retryLoop scaler functionName namespace_ 9 first.1 first.2
    let tail := respond next w r functionName namespace_ looped.1
    { events := Event.Scale functionName namespace_ first.1 :: looped.2.2 ++ tail.1,
      scaler := looped.2.1,
      result := tail.2 }

end Handler

/-! ## Observations on a list of events -/

section Observations

variable {W R H : Type}

/-- The outcome a scaler call returned. -/
def Event.outcome? : Event W R H → Option ScaleOutcome
  | Event.Scale _ _ res => some res
  | _ => none

/-- The identity a scaler call was made with. -/
def Event.identity? : Event W R H → Option (String × String)
  | Event.Scale functionName namespace_ _ => some (functionName, namespace_)
  | _ => none

/-- The length of a sleep. -/
def Event.sleep? : Event W R H → Option Int
  | Event.Sleep d => some d
  | _ => none

/-- The status code of a `WriteHeader`. -/
def Event.status? : Event W R H → Option Nat
  | Event.WriteHeader _ statusCode => some statusCode
  | _ => none

/-- The bytes of a `Write`. -/
def Event.body? : Event W R H → Option String
  | Event.Write _ body => some body
  | _ => none

/-- The arguments of an invocation of the downstream handler. -/
def Event.served? : Event W R H → Option (H × W × R)
  | Event.ServeHTTP next w r => some (next, w, r)
  | _ => none

/-- Outcomes of the scaler calls, in call order. -/
def outcomes (es : List (Event W R H)) : List ScaleOutcome := es.filterMap Event.outcome?

/-- Identities of the scaler calls, in call order. -/
def scaleCalls (es : List (Event W R H)) : List (String × String) :=
  es.filterMap Event.identity?

/-- Lengths of the sleeps, in order. -/
def sleeps (es : List (Event W R H)) : List Int := es.filterMap Event.sleep?

/-- Status codes passed to `WriteHeader`, in order. -/
def statuses (es : List (Event W R H)) : List Nat := es.filterMap Event.status?

/-- Bodies passed to `Write`, in order. -/
def bodies (es : List (Event W R H)) : List String := es.filterMap Event.body?

/-- Invocations of the downstream handler, in order. -/
def nextCalls (es : List (Event W R H)) : List (H × W × R) := es.filterMap Event.served?

end Observations

/-! ## The outcome the handler decides on -/

section Final

variable {σ : Type}

/-- The outcome the handler holds after its first call and its loop. -/
def finalOutcome (scaler : FunctionScaler σ) (fn ns : String) (s : σ) : ScaleOutcome :=
  (retryLoop scaler fn ns 9 (scaler.Scale s fn ns).1 (scaler.Scale s fn ns).2
    : ScaleOutcome × σ × List (Event Unit Unit Unit)).1

/-- The state of the scaler after `i` calls of `Scale` for the identity
`(fn, ns)`, started in state `s`. -/
def scalerState (scaler : FunctionScaler σ) (fn ns : String) : Nat → σ → σ
  | 0, s => s
  | i + 1, s => scalerState scaler fn ns i (scaler.Scale s fn ns).2

/-- The outcome of call number `i` (counted from 0) when the scaler, started
in state `s`, is called again and again for the identity `(fn, ns)`: the
sequence of outcomes the handler reads a prefix of. -/
def nthOutcome (scaler : FunctionScaler σ) (fn ns : String) (s : σ) (i : Nat) : ScaleOutcome :=
  (scaler.Scale (scalerState scaler fn ns i s) fn ns).1

end Final

/-! ## Concrete inputs -/

/-- A scaler that answers from a script: call `k` returns the `k`-th outcome
of the list it was started with, and `fallback` once the list is used up. -/
def scripted (fallback : ScaleOutcome) : FunctionScaler (List ScaleOutcome) where
  Scale := fun s _ _ =>
    match s with
    | [] => (fallback, [])
    | o :: rest => (o, rest)

/-- A scaler without state that returns `o` on every call. -/
def always (o : ScaleOutcome) : FunctionScaler Unit where
  Scale := fun _ _ _ => (o, ())

/-- The service name of a request URL of the form `/function/<name>`: what is
left after the first ten characters.  Stands for the package's
`getServiceName` on concrete inputs. -/
def afterFunctionPrefix (u : String) : String := ⟨u.data.drop 10⟩

/-- Never available, not found, with an error. -/
def notFound : ScaleOutcome := ⟨false, false, some "no such function", 0⟩

/-- Never available, found, with an error. -/
def failing : ScaleOutcome := ⟨false, true, some "scale request failed", 0⟩

/-- Never available, found, without error. -/
def pending : ScaleOutcome := ⟨false, true, none, 0⟩

/-- Never available, not found, and no error value. -/
def unknown : ScaleOutcome := ⟨false, false, none, 0⟩

/-- Available, found, without error. -/
def ready : ScaleOutcome := ⟨true, true, none, 0⟩

/-! ## Properties of `getNamespace` -/

/-- When position `i` holds `c` and no later position does, the scan started
anywhere above `i` stops at `i`. -/
theorem lastIndexBelow_eq_of_last (s : List Char) (c : Char) (i : Nat)
    (hdot : s[i]? = some c) (hlast : c ∉ s.drop (i + 1)) :
    ∀ n, i < n → lastIndexBelow s c n = (i : Int) := by
  intro n
  induction n with
  | zero => intro h; omega
  | succ n ih =>
    intro h
    unfold lastIndexBelow
    by_cases hn : s[n]? = some c
    · rw [if_pos hn]
      by_cases hin : i = n
      · rw [hin]
      · exfalso
        apply hlast
        have hlt : i + 1 ≤ n := by omega
        have hget : (s.drop (i + 1))[n - (i + 1)]? = some c := by
          rw [List.getElem?_drop]
          have : i + 1 + (n - (i + 1)) = n := by omega
          rw [this]; exact hn
        exact List.getElem?_mem hget
    · rw [if_neg hn]
      have hin : i ≠ n := by
        intro h2; apply hn; rw [← h2]; exact hdot
      exact ih (by omega)

/-- A list without `c` makes the scan answer `-1`. -/
theorem lastIndexBelow_eq_neg_one (s : List Char) (c : Char) (hno : c ∉ s) :
    ∀ n, lastIndexBelow s c n = -1 := by
  intro n
  induction n with
  | zero => rfl
  | succ n ih =>
    unfold lastIndexBelow
    have hn : ¬ s[n]? = some c := fun h => hno (List.getElem?_mem h)
    rw [if_neg hn]
    exact ih

/-- C1. `getNamespace` splits at the last `'.'`: when position `i` of
`fullName` holds `'.'` and no later position does, the result is the part of
`fullName` before `i` paired with the part after `i`, whatever
`defaultNamespace` is. -/
theorem getNamespace_splits_at_last_dot (defaultNamespace fullName : String) (i : Nat)
    (hdot : fullName.data[i]? = some '.') (hlast : '.' ∉ fullName.data.drop (i + 1)) :
    getNamespace defaultNamespace fullName
      = some (⟨fullName.data.take i⟩, ⟨fullName.data.drop (i + 1)⟩) := by
  have hlen : i < fullName.data.length := by
    rcases List.getElem?_eq_some_iff.mp hdot with ⟨h, _⟩
    exact h
  have hidx : LastIndex fullName '.' = (i : Int) :=
    lastIndexBelow_eq_of_last fullName.data '.' i hdot hlast _ hlen
  have h1 : slice fullName 0 (i : Int) = some ⟨fullName.data.take i⟩ := by
    unfold slice
    rw [if_pos ⟨le_refl _, by omega, by omega⟩]
    simp
  have h2 : slice fullName ((i : Int) + 1) (fullName.data.length : Int)
      = some ⟨fullName.data.drop (i + 1)⟩ := by
    unfold slice
    rw [if_pos ⟨by omega, by omega, le_refl _⟩]
    have : ((i : Int) + 1).toNat = i + 1 := by omega
    rw [this, Int.toNat_ofNat, List.take_length]
  unfold getNamespace
  dsimp only
  rw [hidx, if_pos (by omega), h1, h2]

/-- The spec's two examples of C1, obtained from the general statement. -/
theorem getNamespace_splits_at_last_dot_witness :
    getNamespace "default" "myfn.prod" = some ("myfn", "prod")
      ∧ getNamespace "default" "a.b.c" = some ("a.b", "c") :=
  ⟨getNamespace_splits_at_last_dot "default" "myfn.prod" 4 (by decide) (by decide),
   getNamespace_splits_at_last_dot "default" "a.b.c" 3 (by decide) (by decide)⟩

/-- C2. A `fullName` without `'.'` is returned unchanged as the name, and the
namespace is `defaultNamespace`. -/
theorem getNamespace_without_dot (defaultNamespace fullName : String)
    (hno : '.' ∉ fullName.data) :
    getNamespace defaultNamespace fullName = some (fullName, defaultNamespace) := by
  have hidx : LastIndex fullName '.' = -1 :=
    lastIndexBelow_eq_neg_one fullName.data '.' hno _
  unfold getNamespace
  dsimp only
  rw [hidx, if_neg (by omega)]

/-- The spec's example of C2, obtained from the general statement. -/
theorem getNamespace_without_dot_witness :
    getNamespace "default" "myfn" = some ("myfn", "default") :=
  getNamespace_without_dot "default" "myfn" (by decide)

/-- The scan answers `-1` or a position below its bound. -/
theorem lastIndexBelow_range (s : List Char) (c : Char) :
    ∀ n, lastIndexBelow s c n = -1
      ∨ (0 ≤ lastIndexBelow s c n ∧ lastIndexBelow s c n < (n : Int)) := by
  intro n
  induction n with
  | zero => left; rfl
  | succ n ih =>
    unfold lastIndexBelow
    by_cases hn : s[n]? = some c
    · rw [if_pos hn]; right; omega
    · rw [if_neg hn]
      rcases ih with h | ⟨h1, h2⟩
      · left; exact h
      · right; omega

/-- `getNamespace` never panics: both slice expressions are in range. -/
theorem getNamespace_returns (defaultNamespace fullName : String) :
    ∃ functionName namespace_,
      getNamespace defaultNamespace fullName = some (functionName, namespace_) := by
  unfold getNamespace
  dsimp only
  by_cases h : LastIndex fullName '.' > -1
  · rw [if_pos h]
    have hr := lastIndexBelow_range fullName.data '.' fullName.data.length
    have hr2 : 0 ≤ LastIndex fullName '.'
        ∧ LastIndex fullName '.' < (fullName.data.length : Int) := by
      unfold LastIndex at h ⊢
      rcases hr with h1 | h1
      · omega
      · exact h1
    have s1 : ∃ a, slice fullName 0 (LastIndex fullName '.') = some a := by
      unfold slice
      rw [if_pos ⟨le_refl _, hr2.1, by omega⟩]
      exact ⟨_, rfl⟩
    have s2 : ∃ b, slice fullName (LastIndex fullName '.' + 1) (fullName.data.length : Int)
        = some b := by
      unfold slice
      rw [if_pos ⟨by omega, by omega, le_refl _⟩]
      exact ⟨_, rfl⟩
    rcases s1 with ⟨a, ha⟩
    rcases s2 with ⟨b, hb⟩
    rw [ha, hb]
    exact ⟨a, b, rfl⟩
  · rw [if_neg h]
    exact ⟨_, _, rfl⟩

/-- A name cut at its last `'.'`: when no `'.'` follows the one between `pre`
and `post`, the result is `(pre, post)`. -/
theorem getNamespace_cut (defaultNamespace : String) (pre post : List Char)
    (hlast : '.' ∉ post) :
    getNamespace defaultNamespace ⟨pre ++ '.' :: post⟩ = some (⟨pre⟩, ⟨post⟩) := by
  have hdot : (pre ++ '.' :: post)[pre.length]? = some '.' := by
    rw [List.getElem?_append_right (le_refl _)]
    simp
  have hdrop : (pre ++ '.' :: post).drop (pre.length + 1) = post := by
    rw [← List.drop_drop]
    simp
  have htake : (pre ++ '.' :: post).take pre.length = pre := by simp
  have hlen : pre.length < (pre ++ '.' :: post).length := by simp
  have hidx : LastIndex ⟨pre ++ '.' :: post⟩ '.' = (pre.length : Int) :=
    lastIndexBelow_eq_of_last (pre ++ '.' :: post) '.' pre.length hdot
      (by rw [hdrop]; exact hlast) _ hlen
  have h1 : slice ⟨pre ++ '.' :: post⟩ 0 (pre.length : Int) = some ⟨pre⟩ := by
    unfold slice
    rw [if_pos ⟨le_refl _, by omega, by simp; omega⟩]
    simp
  have h2 : slice ⟨pre ++ '.' :: post⟩ ((pre.length : Int) + 1)
      ((pre ++ '.' :: post).length : Int) = some ⟨post⟩ := by
    unfold slice
    rw [if_pos ⟨by omega, by simp, le_refl _⟩]
    have : ((pre.length : Int) + 1).toNat = pre.length + 1 := by omega
    rw [this, Int.toNat_ofNat, List.take_length, hdrop]
  unfold getNamespace
  dsimp only
  rw [hidx, if_pos (by omega), h1, h2]

/-- A list that holds `c` splits at the last `c`. -/
theorem split_at_last (c : Char) (l : List Char) (h : c ∈ l) :
    ∃ pre post, l = pre ++ c :: post ∧ c ∉ post := by
  have hr : c ∈ l.reverse := List.mem_reverse.mpr h
  rcases List.eq_append_cons_of_mem hr with ⟨as, bs, heq, hnot⟩
  refine ⟨bs.reverse, as.reverse, ?_, ?_⟩
  · have := congrArg List.reverse heq
    simpa using this
  · simpa using hnot

/-! ## Properties of the retry loop -/

section LoopLemmas

variable {W R H σ : Type}

/-- The outcomes of a list of events, one event at a time. -/
theorem outcomes_cons (e : Event W R H) (es : List (Event W R H)) :
    outcomes (e :: es) = e.outcome?.toList ++ outcomes es := by
  cases h : e.outcome? <;> simp [outcomes, List.filterMap_cons, h]

/-- The identities of a list of events, one event at a time. -/
theorem scaleCalls_cons (e : Event W R H) (es : List (Event W R H)) :
    scaleCalls (e :: es) = e.identity?.toList ++ scaleCalls es := by
  cases h : e.identity? <;> simp [scaleCalls, List.filterMap_cons, h]

/-- The sleeps of a list of events, one event at a time. -/
theorem sleeps_cons (e : Event W R H) (es : List (Event W R H)) :
    sleeps (e :: es) = e.sleep?.toList ++ sleeps es := by
  cases h : e.sleep? <;> simp [sleeps, List.filterMap_cons, h]

/-- The statuses of a list of events, one event at a time. -/
theorem statuses_cons (e : Event W R H) (es : List (Event W R H)) :
    statuses (e :: es) = e.status?.toList ++ statuses es := by
  cases h : e.status? <;> simp [statuses, List.filterMap_cons, h]

/-- The bodies of a list of events, one event at a time. -/
theorem bodies_cons (e : Event W R H) (es : List (Event W R H)) :
    bodies (e :: es) = e.body?.toList ++ bodies es := by
  cases h : e.body? <;> simp [bodies, List.filterMap_cons, h]

/-- The downstream invocations of a list of events, one event at a time. -/
theorem nextCalls_cons (e : Event W R H) (es : List (Event W R H)) :
    nextCalls (e :: es) = e.served?.toList ++ nextCalls es := by
  cases h : e.served? <;> simp [nextCalls, List.filterMap_cons, h]

/-- The loop touches neither the response nor the downstream handler. -/
theorem retryLoop_writes_nothing (scaler : FunctionScaler σ) (fn ns : String) :
    ∀ (n : Nat) (res : ScaleOutcome) (s : σ),
      statuses (retryLoop scaler fn ns n res s : ScaleOutcome × σ × List (Event W R H)).2.2 = []
      ∧ bodies (retryLoop scaler fn ns n res s : ScaleOutcome × σ × List (Event W R H)).2.2 = []
      ∧ nextCalls (retryLoop scaler fn ns n res s : ScaleOutcome × σ × List (Event W R H)).2.2
          = [] := by
  intro n
  induction n with
  | zero => intro res s; simp [retryLoop, statuses, bodies, nextCalls]
  | succ n ih =>
    intro res s
    have h := ih (scaler.Scale s fn ns).1 (scaler.Scale s fn ns).2
    cases ha : res.Available
    · simpa [retryLoop, ha, statuses, bodies, nextCalls, Event.status?, Event.body?,
        Event.served?] using h
    · simp [retryLoop, ha, statuses, bodies, nextCalls]

/-- The outcome the loop ends with is the last one the scaler returned, or the
one the loop was entered with when it made no call. -/
theorem retryLoop_last (scaler : FunctionScaler σ) (fn ns : String) :
    ∀ (n : Nat) (res : ScaleOutcome) (s : σ),
      (res :: outcomes
          (retryLoop scaler fn ns n res s : ScaleOutcome × σ × List (Event W R H)).2.2).getLast?
        = some (retryLoop scaler fn ns n res s : ScaleOutcome × σ × List (Event W R H)).1 := by
  intro n
  induction n with
  | zero => intro res s; simp [retryLoop, outcomes]
  | succ n ih =>
    intro res s
    have h := ih (scaler.Scale s fn ns).1 (scaler.Scale s fn ns).2
    cases ha : res.Available
    · simp only [retryLoop, ha, outcomes, Event.outcome?, List.filterMap_cons] at h ⊢
      simpa [List.getLast?_cons_cons] using h
    · simp [retryLoop, ha, outcomes]

/-- The loop makes at most as many scaler calls as it has tries, and sleeps
`time.Millisecond * 5000` once before each of them. -/
theorem retryLoop_sleeps (scaler : FunctionScaler σ) (fn ns : String) :
    ∀ (n : Nat) (res : ScaleOutcome) (s : σ),
      (outcomes
          (retryLoop scaler fn ns n res s : ScaleOutcome × σ × List (Event W R H)).2.2).length ≤ n
      ∧ sleeps (retryLoop scaler fn ns n res s : ScaleOutcome × σ × List (Event W R H)).2.2
          = List.replicate
              (outcomes
                (retryLoop scaler fn ns n res s : ScaleOutcome × σ × List (Event W R H)).2.2).length
              (Millisecond * 5000) := by
  intro n
  induction n with
  | zero => intro res s; simp [retryLoop, outcomes, sleeps]
  | succ n ih =>
    intro res s
    have h := ih (scaler.Scale s fn ns).1 (scaler.Scale s fn ns).2
    cases ha : res.Available
    · simp only [retryLoop, ha, Bool.not_false, if_true, outcomes_cons, sleeps_cons,
        Event.outcome?, Event.sleep?, Option.toList, List.nil_append, List.singleton_append,
        List.length_cons, List.replicate_succ]
      exact ⟨by omega, by rw [← h.2]⟩
    · simp [retryLoop, ha, outcomes, sleeps]

/-- When the loop is entered with an unavailable outcome and every outcome it
gets is unavailable, it uses all its tries. -/
theorem retryLoop_exhausts (scaler : FunctionScaler σ) (fn ns : String) :
    ∀ (n : Nat) (res : ScaleOutcome) (s : σ), res.Available = false →
      (∀ o ∈ outcomes
          (retryLoop scaler fn ns n res s : ScaleOutcome × σ × List (Event W R H)).2.2,
        o.Available = false) →
      (outcomes
          (retryLoop scaler fn ns n res s : ScaleOutcome × σ × List (Event W R H)).2.2).length
        = n := by
  intro n
  induction n with
  | zero => intro res s _ _; simp [retryLoop, outcomes]
  | succ n ih =>
    intro res s ha hall
    have h := ih (scaler.Scale s fn ns).1 (scaler.Scale s fn ns).2
    simp only [retryLoop, ha, Bool.not_false, if_true, outcomes_cons,
      Event.outcome?, Option.toList, List.nil_append, List.singleton_append,
      List.length_cons, List.mem_cons, forall_eq_or_imp] at hall ⊢
    rw [h hall.1 hall.2]

/-- An available outcome leaves the loop at once. -/
theorem retryLoop_break (scaler : FunctionScaler σ) (fn ns : String) (n : Nat)
    (res : ScaleOutcome) (s : σ) (ha : res.Available = true) :
    (retryLoop scaler fn ns n res s : ScaleOutcome × σ × List (Event W R H)) = (res, s, []) := by
  cases n with
  | zero => rfl
  | succ n => simp [retryLoop, ha]

end LoopLemmas

/-! ## Shape of one run of the handler -/

section RunLemmas

variable {W R H σ : Type}

/-- The outcome the loop ends with does not depend on the event types. -/
theorem retryLoop_fst (scaler : FunctionScaler σ) (fn ns : String) :
    ∀ (n : Nat) (res : ScaleOutcome) (s : σ),
      (retryLoop scaler fn ns n res s : ScaleOutcome × σ × List (Event W R H)).1
        = (retryLoop scaler fn ns n res s : ScaleOutcome × σ × List (Event Unit Unit Unit)).1 := by
  intro n
  induction n with
  | zero => intro res s; rfl
  | succ n ih =>
    intro res s
    cases ha : res.Available
    · simpa [retryLoop, ha] using ih _ _
    · simp [retryLoop, ha]

/-- The part after the loop makes no scaler call and does not sleep. -/
theorem respond_quiet (next : H) (w : W) (r : R) (fn ns : String) (res : ScaleOutcome) :
    outcomes (respond next w r fn ns res).1 = []
      ∧ sleeps (respond next w r fn ns res).1 = []
      ∧ scaleCalls (respond next w r fn ns res).1 = [] := by
  unfold respond
  cases res.Found <;> cases res.Error <;> cases res.Available <;>
    simp [outcomes_cons, sleeps_cons, scaleCalls_cons, Event.outcome?, Event.sleep?,
      Event.identity?, outcomes, sleeps, scaleCalls]

/-- One run is the first scaler call, the loop, and the part after the loop
applied to the outcome the loop ended with. -/
theorem run_events (next : H) (scaler : FunctionScaler σ) (config : ScalingConfig)
    (defaultNamespace : String) (getServiceName : String → String) (url : R → String)
    (w : W) (r : R) (s : σ) (fn ns : String)
    (hid : getNamespace defaultNamespace (getServiceName (url r)) = some (fn, ns)) :
    (MakeScalingHandler next scaler config defaultNamespace getServiceName url w r s).events
        = Event.Scale fn ns (scaler.Scale s fn ns).1
            :: (retryLoop scaler fn ns 9 (scaler.Scale s fn ns).1 (scaler.Scale s fn ns).2).2.2
            ++ (respond next w r fn ns (finalOutcome scaler fn ns s)).1
      ∧ (MakeScalingHandler next scaler config defaultNamespace getServiceName url w r s).result
        = (respond next w r fn ns (finalOutcome scaler fn ns s)).2 := by
  unfold MakeScalingHandler finalOutcome
  rw [hid]
  dsimp only
  rw [retryLoop_fst]
  exact ⟨rfl, rfl⟩

/-- The scaler outcomes of one run: the first one, then those of the loop. -/
theorem run_outcomes (next : H) (scaler : FunctionScaler σ) (config : ScalingConfig)
    (defaultNamespace : String) (getServiceName : String → String) (url : R → String)
    (w : W) (r : R) (s : σ) (fn ns : String)
    (hid : getNamespace defaultNamespace (getServiceName (url r)) = some (fn, ns)) :
    outcomes (MakeScalingHandler next scaler config defaultNamespace getServiceName url w r s).events
      = (scaler.Scale s fn ns).1
          :: outcomes (retryLoop scaler fn ns 9 (scaler.Scale s fn ns).1 (scaler.Scale s fn ns).2
              : ScaleOutcome × σ × List (Event W R H)).2.2 := by
  rw [(run_events next scaler config defaultNamespace getServiceName url w r s fn ns hid).1]
  rw [List.cons_append, outcomes_cons]
  unfold outcomes
  rw [List.filterMap_append]
  have h := (respond_quiet next w r fn ns (finalOutcome scaler fn ns s)).1
  unfold outcomes at h
  rw [h]
  simp [Event.outcome?]

/-- The last outcome the scaler returned in a run is the one the part after
the loop decides on. -/
theorem run_last (next : H) (scaler : FunctionScaler σ) (config : ScalingConfig)
    (defaultNamespace : String) (getServiceName : String → String) (url : R → String)
    (w : W) (r : R) (s : σ) (fn ns : String)
    (hid : getNamespace defaultNamespace (getServiceName (url r)) = some (fn, ns)) :
    (outcomes
        (MakeScalingHandler next scaler config defaultNamespace getServiceName url w r s).events).getLast?
      = some (finalOutcome scaler fn ns s) := by
  rw [run_outcomes next scaler config defaultNamespace getServiceName url w r s fn ns hid]
  rw [retryLoop_last, retryLoop_fst]
  rfl

/-- What a run does to the response and to the downstream handler is what the
part after the loop does. -/
theorem run_response (next : H) (scaler : FunctionScaler σ) (config : ScalingConfig)
    (defaultNamespace : String) (getServiceName : String → String) (url : R → String)
    (w : W) (r : R) (s : σ) (fn ns : String)
    (hid : getNamespace defaultNamespace (getServiceName (url r)) = some (fn, ns)) :
    statuses (MakeScalingHandler next scaler config defaultNamespace getServiceName url w r s).events
        = statuses (respond next w r fn ns (finalOutcome scaler fn ns s)).1
      ∧ bodies (MakeScalingHandler next scaler config defaultNamespace getServiceName url w r s).events
        = bodies (respond next w r fn ns (finalOutcome scaler fn ns s)).1
      ∧ nextCalls
          (MakeScalingHandler next scaler config defaultNamespace getServiceName url w r s).events
        = nextCalls (respond next w r fn ns (finalOutcome scaler fn ns s)).1 := by
  rw [(run_events next scaler config defaultNamespace getServiceName url w r s fn ns hid).1]
  have h := retryLoop_writes_nothing (W := W) (R := R) (H := H) scaler fn ns 9
    (scaler.Scale s fn ns).1 (scaler.Scale s fn ns).2
  rw [List.cons_append, statuses_cons, bodies_cons, nextCalls_cons]
  unfold statuses bodies nextCalls at h ⊢
  rw [List.filterMap_append, List.filterMap_append, List.filterMap_append, h.1, h.2.1, h.2.2]
  simp [Event.status?, Event.body?, Event.served?]

/-- An available first outcome is the one the handler decides on. -/
theorem finalOutcome_of_first_available (scaler : FunctionScaler σ) (fn ns : String) (s : σ)
    (ha : (scaler.Scale s fn ns).1.Available = true) :
    finalOutcome scaler fn ns s = (scaler.Scale s fn ns).1 := by
  unfold finalOutcome
  rw [retryLoop_break scaler fn ns 9 _ _ ha]

/-- The downstream handler is invoked by the part after the loop at most once,
with the arguments of the handler, and not at all for an unavailable outcome. -/
theorem respond_nextCalls (next : H) (w : W) (r : R) (fn ns : String) (res : ScaleOutcome) :
    (res.Available = false → nextCalls (respond next w r fn ns res).1 = [])
      ∧ (nextCalls (respond next w r fn ns res).1 = []
          ∨ nextCalls (respond next w r fn ns res).1 = [(next, w, r)]) := by
  unfold respond
  cases res.Found <;> cases res.Error <;> cases res.Available <;>
    simp [nextCalls_cons, Event.served?, nextCalls]

/-- Every scaler call of the loop is made with the identity the loop was
given. -/
theorem retryLoop_scaleCalls (scaler : FunctionScaler σ) (fn ns : String) :
    ∀ (n : Nat) (res : ScaleOutcome) (s : σ),
      scaleCalls (retryLoop scaler fn ns n res s : ScaleOutcome × σ × List (Event W R H)).2.2
        = List.replicate
            (outcomes
              (retryLoop scaler fn ns n res s : ScaleOutcome × σ × List (Event W R H)).2.2).length
            (fn, ns) := by
  intro n
  induction n with
  | zero => intro res s; simp [retryLoop, outcomes, scaleCalls]
  | succ n ih =>
    intro res s
    have h := ih (scaler.Scale s fn ns).1 (scaler.Scale s fn ns).2
    cases ha : res.Available
    · simp only [retryLoop, ha, Bool.not_false, if_true, outcomes_cons, scaleCalls_cons,
        Event.outcome?, Event.identity?, Option.toList, List.nil_append, List.singleton_append,
        List.length_cons, List.replicate_succ]
      rw [← h]
    · simp [retryLoop, ha, outcomes, scaleCalls]

/-- A loop entered with an unavailable outcome and with more tries than the
number `m` of the first available outcome to come makes `m + 1` calls: it
reads the outcomes up to that one and no more. -/
theorem retryLoop_until_available (scaler : FunctionScaler σ) (fn ns : String) :
    ∀ (n m : Nat) (res : ScaleOutcome) (s : σ), m < n → res.Available = false →
      (∀ i, i < m → (nthOutcome scaler fn ns s i).Available = false) →
      (nthOutcome scaler fn ns s m).Available = true →
      outcomes (retryLoop scaler fn ns n res s : ScaleOutcome × σ × List (Event W R H)).2.2
        = (List.range (m + 1)).map (nthOutcome scaler fn ns s) := by
  intro n
  induction n with
  | zero => intro m res s h; omega
  | succ n ih =>
    intro m res s hm ha hbefore hat
    simp only [retryLoop, ha, Bool.not_false, if_true, outcomes_cons, Event.outcome?,
      Option.toList, List.nil_append, List.singleton_append]
    rw [List.range_succ_eq_map, List.map_cons, List.map_map]
    have hshift : (nthOutcome scaler fn ns s) ∘ Nat.succ
        = nthOutcome scaler fn ns (scaler.Scale s fn ns).2 := by
      funext i; rfl
    rw [hshift]
    have hzero : nthOutcome scaler fn ns s 0 = (scaler.Scale s fn ns).1 := rfl
    rw [hzero]
    cases m with
    | zero =>
      rw [hzero] at hat
      rw [retryLoop_break scaler fn ns n _ _ hat]
      simp [outcomes]
    | succ m =>
      have h0 := hbefore 0 (by omega)
      rw [hzero] at h0
      rw [ih m (scaler.Scale s fn ns).1 (scaler.Scale s fn ns).2 (by omega) h0
        (fun i hi => hbefore (i + 1) (by omega)) hat]

/-- The scaler calls and the sleeps of one run: between one and ten calls, all
with the identity of the request, and a sleep of `time.Millisecond * 5000`
before every call but the first. -/
theorem run_calls (next : H) (scaler : FunctionScaler σ) (config : ScalingConfig)
    (defaultNamespace : String) (getServiceName : String → String) (url : R → String)
    (w : W) (r : R) (s : σ) (fn ns : String)
    (hid : getNamespace defaultNamespace (getServiceName (url r)) = some (fn, ns)) :
    1 ≤ (outcomes (MakeScalingHandler next scaler config defaultNamespace getServiceName
        url w r s).events).length
      ∧ (outcomes (MakeScalingHandler next scaler config defaultNamespace getServiceName
        url w r s).events).length ≤ 10
      ∧ sleeps (MakeScalingHandler next scaler config defaultNamespace getServiceName
        url w r s).events
        = List.replicate
            ((outcomes (MakeScalingHandler next scaler config defaultNamespace getServiceName
              url w r s).events).length - 1) (Millisecond * 5000)
      ∧ scaleCalls (MakeScalingHandler next scaler config defaultNamespace getServiceName
        url w r s).events
        = List.replicate
            (outcomes (MakeScalingHandler next scaler config defaultNamespace getServiceName
              url w r s).events).length (fn, ns) := by
  rw [run_outcomes next scaler config defaultNamespace getServiceName url w r s fn ns hid]
  rw [(run_events next scaler config defaultNamespace getServiceName url w r s fn ns hid).1]
  have hs := retryLoop_sleeps (W := W) (R := R) (H := H) scaler fn ns 9
    (scaler.Scale s fn ns).1 (scaler.Scale s fn ns).2
  have hc := retryLoop_scaleCalls (W := W) (R := R) (H := H) scaler fn ns 9
    (scaler.Scale s fn ns).1 (scaler.Scale s fn ns).2
  have hq := respond_quiet next w r fn ns (finalOutcome scaler fn ns s)
  rw [List.cons_append, sleeps_cons, scaleCalls_cons]
  simp only [sleeps, scaleCalls] at hs hc hq ⊢
  rw [List.filterMap_append, List.filterMap_append, hq.2.1, hq.2.2, hs.2, hc]
  simp only [Event.sleep?, Event.identity?, Option.toList, List.nil_append,
    List.singleton_append, List.append_nil, List.length_cons, Nat.add_sub_cancel,
    List.replicate_succ]
  have hle := hs.1
  exact ⟨by omega, by omega, trivial, trivial⟩

/-- The outcomes of a run whose first available outcome is number `j` (counted
from 0) with `j < 10`: the outcomes `0, ..., j` and no more. -/
theorem run_until_available (next : H) (scaler : FunctionScaler σ) (config : ScalingConfig)
    (defaultNamespace : String) (getServiceName : String → String) (url : R → String)
    (w : W) (r : R) (s : σ) (fn ns : String)
    (hid : getNamespace defaultNamespace (getServiceName (url r)) = some (fn, ns))
    (j : Nat) (hj : j < 10)
    (hbefore : ∀ i, i < j → (nthOutcome scaler fn ns s i).Available = false)
    (hat : (nthOutcome scaler fn ns s j).Available = true) :
    outcomes (MakeScalingHandler next scaler config defaultNamespace getServiceName
        url w r s).events
      = (List.range (j + 1)).map (nthOutcome scaler fn ns s) := by
  rw [run_outcomes next scaler config defaultNamespace getServiceName url w r s fn ns hid]
  rw [List.range_succ_eq_map, List.map_cons, List.map_map]
  have hshift : (nthOutcome scaler fn ns s) ∘ Nat.succ
      = nthOutcome scaler fn ns (scaler.Scale s fn ns).2 := by
    funext i; rfl
  have hzero : nthOutcome scaler fn ns s 0 = (scaler.Scale s fn ns).1 := rfl
  rw [hshift, hzero]
  cases j with
  | zero =>
    rw [hzero] at hat
    rw [retryLoop_break scaler fn ns 9 _ _ hat]
    simp [outcomes]
  | succ m =>
    have h0 := hbefore 0 (by omega)
    rw [hzero] at h0
    rw [retryLoop_until_available scaler fn ns 9 m (scaler.Scale s fn ns).1
      (scaler.Scale s fn ns).2 (by omega) h0 (fun i hi => hbefore (i + 1) (by omega)) hat]

/-- What the part after the loop does, by the fields of the outcome: a panic
exactly for not found without error value; otherwise at most one status,
404 exactly for not found, 500 exactly for found with an error, and the
downstream handler exactly for found, no error and available, never together
with a status or a body. -/
theorem respond_cases (next : H) (w : W) (r : R) (fn ns : String) (res : ScaleOutcome) :
    ((respond next w r fn ns res).2 = Except.ok () ↔ ¬ (res.Found = false ∧ res.Error = none))
      ∧ ((respond next w r fn ns res).2 = Except.ok () →
          (statuses (respond next w r fn ns res).1 = [404] ↔ res.Found = false)
          ∧ (statuses (respond next w r fn ns res).1 = [500]
              ↔ (res.Found = true ∧ res.Error ≠ none))
          ∧ (nextCalls (respond next w r fn ns res).1 = [(next, w, r)]
              ↔ (res.Found = true ∧ res.Error = none ∧ res.Available = true)))
      ∧ (nextCalls (respond next w r fn ns res).1 = []
          ∨ (nextCalls (respond next w r fn ns res).1 = [(next, w, r)]
              ∧ statuses (respond next w r fn ns res).1 = []
              ∧ bodies (respond next w r fn ns res).1 = []))
      ∧ (statuses (respond next w r fn ns res).1).length ≤ 1
      ∧ (bodies (respond next w r fn ns res).1).length
          = (statuses (respond next w r fn ns res).1).length := by
  unfold respond
  cases res.Found <;> cases res.Error <;> cases res.Available <;>
    simp [nextCalls_cons, statuses_cons, bodies_cons, Event.served?, Event.status?,
      Event.body?, nextCalls, statuses, bodies, StatusNotFound, StatusInternalServerError]

end RunLemmas

/-! ## The handler: forwarding, rejection and timeout -/

section Claims

variable {W R H σ : Type}

/-- C3, as stated, fails: a run whose loop ends with an outcome that is
available but not found is rejected with 404, and the downstream handler is
not invoked. -/
theorem available_but_not_found_is_rejected :
    (outcomes (MakeScalingHandler "next" (always ⟨true, false, some "no such function", 0⟩)
        ⟨10, 5000000000⟩ "default" afterFunctionPrefix id "w" "/function/myfn.prod" ()).events).getLast?
        = some ⟨true, false, some "no such function", 0⟩
      ∧ nextCalls (MakeScalingHandler "next" (always ⟨true, false, some "no such function", 0⟩)
        ⟨10, 5000000000⟩ "default" afterFunctionPrefix id "w" "/function/myfn.prod" ()).events = []
      ∧ statuses (MakeScalingHandler "next" (always ⟨true, false, some "no such function", 0⟩)
        ⟨10, 5000000000⟩ "default" afterFunctionPrefix id "w" "/function/myfn.prod" ()).events
        = [404]
      ∧ bodies (MakeScalingHandler "next" (always ⟨true, false, some "no such function", 0⟩)
        ⟨10, 5000000000⟩ "default" afterFunctionPrefix id "w" "/function/myfn.prod" ()).events
        = ["error finding function myfn.prod: no such function"] := by
  decide

/-- C3, amended. Whenever the loop ends with an outcome `res` that is
available, found and without error (the last outcome of the run, or the first
one when the first one is already so), the downstream handler is invoked
exactly once, with the handler's own writer and request, the handler writes
no status and no body, and it returns. -/
theorem forward_when_available_found_no_error (next : H) (scaler : FunctionScaler σ)
    (config : ScalingConfig) (defaultNamespace : String) (getServiceName : String → String)
    (url : R → String) (w : W) (r : R) (s : σ) (res : ScaleOutcome)
    (hres : (outcomes (MakeScalingHandler next scaler config defaultNamespace getServiceName
                url w r s).events).getLast? = some res
          ∨ (outcomes (MakeScalingHandler next scaler config defaultNamespace getServiceName
                url w r s).events).head? = some res)
    (ha : res.Available = true) (hf : res.Found = true) (he : res.Error = none) :
    nextCalls (MakeScalingHandler next scaler config defaultNamespace getServiceName
        url w r s).events = [(next, w, r)]
      ∧ statuses (MakeScalingHandler next scaler config defaultNamespace getServiceName
        url w r s).events = []
      ∧ bodies (MakeScalingHandler next scaler config defaultNamespace getServiceName
        url w r s).events = []
      ∧ (MakeScalingHandler next scaler config defaultNamespace getServiceName
        url w r s).result = Except.ok () := by
  rcases getNamespace_returns defaultNamespace (getServiceName (url r)) with ⟨fn, ns, hid⟩
  have hfinal : finalOutcome scaler fn ns s = res := by
    rcases hres with h | h
    · rw [run_last next scaler config defaultNamespace getServiceName url w r s fn ns hid] at h
      exact Option.some.inj h
    · rw [run_outcomes next scaler config defaultNamespace getServiceName url w r s fn ns hid,
        List.head?_cons] at h
      have h1 := Option.some.inj h
      rw [← h1]
      exact finalOutcome_of_first_available scaler fn ns s (by rw [h1]; exact ha)
  have hr := run_response next scaler config defaultNamespace getServiceName url w r s fn ns hid
  have he2 := (run_events next scaler config defaultNamespace getServiceName url w r s fn ns hid).2
  rw [hfinal] at hr he2
  rw [hr.1, hr.2.1, hr.2.2, he2]
  simp [respond, ha, hf, he, nextCalls_cons, statuses_cons, bodies_cons, Event.served?,
    Event.status?, Event.body?, nextCalls, statuses, bodies]

/-- C3, amended, at a concrete input: the scaler is ready on the first call. -/
theorem forward_when_available_found_no_error_witness :
    nextCalls (MakeScalingHandler "next" (always ready) ⟨10, 5000000000⟩ "default"
        afterFunctionPrefix id "w" "/function/myfn.prod" ()).events
        = [("next", "w", "/function/myfn.prod")]
      ∧ statuses (MakeScalingHandler "next" (always ready) ⟨10, 5000000000⟩ "default"
        afterFunctionPrefix id "w" "/function/myfn.prod" ()).events = []
      ∧ bodies (MakeScalingHandler "next" (always ready) ⟨10, 5000000000⟩ "default"
        afterFunctionPrefix id "w" "/function/myfn.prod" ()).events = []
      ∧ (MakeScalingHandler "next" (always ready) ⟨10, 5000000000⟩ "default"
        afterFunctionPrefix id "w" "/function/myfn.prod" ()).result = Except.ok () :=
  forward_when_available_found_no_error "next" (always ready) ⟨10, 5000000000⟩ "default"
    afterFunctionPrefix id "w" "/function/myfn.prod" () ready (Or.inl (by decide))
    (by decide) (by decide) (by decide)

/-- C4, the code at a failing input. Whatever the configuration is (here one
attempt with no delay is as good as any), a scaler that is never available is
called ten times, with nine sleeps of `time.Millisecond * 5000` between the
calls. -/
theorem attempt_budget_ignores_config (config : ScalingConfig) :
    (outcomes (MakeScalingHandler "next" (always pending) config "default"
        afterFunctionPrefix id "w" "/function/myfn.prod" ()).events).length = 10
      ∧ sleeps (MakeScalingHandler "next" (always pending) config "default"
        afterFunctionPrefix id "w" "/function/myfn.prod" ()).events
        = List.replicate 9 5000000000
      ∧ (outcomes (MakeScalingHandler "next" (always pending) ⟨1, 0⟩ "default"
        afterFunctionPrefix id "w" "/function/myfn.prod" ()).events).length ≠ 1
      ∧ sleeps (MakeScalingHandler "next" (always pending) ⟨1, 0⟩ "default"
        afterFunctionPrefix id "w" "/function/myfn.prod" ()).events ≠ [] := by
  refine ⟨?_, ?_, ?_, ?_⟩
  · exact (by decide : (outcomes (MakeScalingHandler "next" (always pending) ⟨1, 0⟩ "default"
      afterFunctionPrefix id "w" "/function/myfn.prod" ()).events).length = 10)
  · exact (by decide : sleeps (MakeScalingHandler "next" (always pending) ⟨1, 0⟩ "default"
      afterFunctionPrefix id "w" "/function/myfn.prod" ()).events = List.replicate 9 5000000000)
  · decide
  · decide

/-- C5. Only the last outcome classifies the response: two runs of the same
handler on the same request, against any two scalers, in which no outcome is
available and the last outcomes are equal, write the same statuses and bodies,
invoke the downstream handler the same way and end the same way.  (Equality
of the last outcomes is all the proof uses.) -/
theorem last_outcome_classifies {σ₁ σ₂ : Type} (next : H) (scaler₁ : FunctionScaler σ₁)
    (scaler₂ : FunctionScaler σ₂) (config : ScalingConfig) (defaultNamespace : String)
    (getServiceName : String → String) (url : R → String) (w : W) (r : R) (s₁ : σ₁) (s₂ : σ₂)
    (h₁ : ∀ o ∈ outcomes (MakeScalingHandler next scaler₁ config defaultNamespace getServiceName
        url w r s₁).events, o.Available = false)
    (h₂ : ∀ o ∈ outcomes (MakeScalingHandler next scaler₂ config defaultNamespace getServiceName
        url w r s₂).events, o.Available = false)
    (hlast : (outcomes (MakeScalingHandler next scaler₁ config defaultNamespace getServiceName
          url w r s₁).events).getLast?
        = (outcomes (MakeScalingHandler next scaler₂ config defaultNamespace getServiceName
          url w r s₂).events).getLast?) :
    statuses (MakeScalingHandler next scaler₁ config defaultNamespace getServiceName
        url w r s₁).events
        = statuses (MakeScalingHandler next scaler₂ config defaultNamespace getServiceName
        url w r s₂).events
      ∧ bodies (MakeScalingHandler next scaler₁ config defaultNamespace getServiceName
        url w r s₁).events
        = bodies (MakeScalingHandler next scaler₂ config defaultNamespace getServiceName
        url w r s₂).events
      ∧ nextCalls (MakeScalingHandler next scaler₁ config defaultNamespace getServiceName
        url w r s₁).events
        = nextCalls (MakeScalingHandler next scaler₂ config defaultNamespace getServiceName
        url w r s₂).events
      ∧ (MakeScalingHandler next scaler₁ config defaultNamespace getServiceName
        url w r s₁).result
        = (MakeScalingHandler next scaler₂ config defaultNamespace getServiceName
        url w r s₂).result := by
  rcases getNamespace_returns defaultNamespace (getServiceName (url r)) with ⟨fn, ns, hid⟩
  rw [run_last next scaler₁ config defaultNamespace getServiceName url w r s₁ fn ns hid,
    run_last next scaler₂ config defaultNamespace getServiceName url w r s₂ fn ns hid] at hlast
  have hfinal := Option.some.inj hlast
  have hr₁ := run_response next scaler₁ config defaultNamespace getServiceName url w r s₁ fn ns hid
  have hr₂ := run_response next scaler₂ config defaultNamespace getServiceName url w r s₂ fn ns hid
  have he₁ := (run_events next scaler₁ config defaultNamespace getServiceName url w r s₁ fn ns hid).2
  have he₂ := (run_events next scaler₂ config defaultNamespace getServiceName url w r s₂ fn ns hid).2
  rw [hr₁.1, hr₁.2.1, hr₁.2.2, he₁, hr₂.1, hr₂.2.1, hr₂.2.2, he₂, hfinal]
  exact ⟨rfl, rfl, rfl, rfl⟩

/-- C5 at the spec's input: not found on the first call and found with an
error on the last gives the response of a scaler that fails on every call,
status 500 with the error's text and not 404. -/
theorem last_outcome_classifies_witness :
    (statuses (MakeScalingHandler "next" (scripted failing) ⟨10, 5000000000⟩ "default"
        afterFunctionPrefix id "w" "/function/myfn.prod"
        [notFound, pending, pending, pending, pending, pending, pending, pending, pending,
          failing]).events
        = statuses (MakeScalingHandler "next" (always failing) ⟨10, 5000000000⟩ "default"
        afterFunctionPrefix id "w" "/function/myfn.prod" ()).events
      ∧ bodies (MakeScalingHandler "next" (scripted failing) ⟨10, 5000000000⟩ "default"
        afterFunctionPrefix id "w" "/function/myfn.prod"
        [notFound, pending, pending, pending, pending, pending, pending, pending, pending,
          failing]).events
        = bodies (MakeScalingHandler "next" (always failing) ⟨10, 5000000000⟩ "default"
        afterFunctionPrefix id "w" "/function/myfn.prod" ()).events
      ∧ nextCalls (MakeScalingHandler "next" (scripted failing) ⟨10, 5000000000⟩ "default"
        afterFunctionPrefix id "w" "/function/myfn.prod"
        [notFound, pending, pending, pending, pending, pending, pending, pending, pending,
          failing]).events
        = nextCalls (MakeScalingHandler "next" (always failing) ⟨10, 5000000000⟩ "default"
        afterFunctionPrefix id "w" "/function/myfn.prod" ()).events
      ∧ (MakeScalingHandler "next" (scripted failing) ⟨10, 5000000000⟩ "default"
        afterFunctionPrefix id "w" "/function/myfn.prod"
        [notFound, pending, pending, pending, pending, pending, pending, pending, pending,
          failing]).result
        = (MakeScalingHandler "next" (always failing) ⟨10, 5000000000⟩ "default"
        afterFunctionPrefix id "w" "/function/myfn.prod" ()).result)
      ∧ statuses (MakeScalingHandler "next" (scripted failing) ⟨10, 5000000000⟩ "default"
        afterFunctionPrefix id "w" "/function/myfn.prod"
        [notFound, pending, pending, pending, pending, pending, pending, pending, pending,
          failing]).events = [500]
      ∧ bodies (MakeScalingHandler "next" (scripted failing) ⟨10, 5000000000⟩ "default"
        afterFunctionPrefix id "w" "/function/myfn.prod"
        [notFound, pending, pending, pending, pending, pending, pending, pending, pending,
          failing]).events = ["error finding function myfn.prod: scale request failed"] :=
  ⟨last_outcome_classifies "next" (scripted failing) (always failing) ⟨10, 5000000000⟩ "default"
      afterFunctionPrefix id "w" "/function/myfn.prod"
      [notFound, pending, pending, pending, pending, pending, pending, pending, pending, failing]
      () (by decide) (by decide) (by decide),
    by decide, by decide⟩

/-- C6. Not-found rejection: when the identity of the request is
`(name, namespace_)`, the loop is exhausted (ten scaler calls were made) and
the last outcome is not found with the error text `e`, the handler writes
status 404 once, writes the body
`"error finding function " ++ name ++ "." ++ namespace_ ++ ": " ++ e` once,
and does not invoke the downstream handler.  (The proof reads the last
outcome only; it does not use that the loop was exhausted.) -/
theorem not_found_rejection (next : H) (scaler : FunctionScaler σ)
    (config : ScalingConfig) (defaultNamespace : String) (getServiceName : String → String)
    (url : R → String) (w : W) (r : R) (s : σ) (name namespace_ : String)
    (res : ScaleOutcome) (e : String)
    (hid : getNamespace defaultNamespace (getServiceName (url r)) = some (name, namespace_))
    (hexhausted : (outcomes (MakeScalingHandler next scaler config defaultNamespace
        getServiceName url w r s).events).length = 10)
    (hlast : (outcomes (MakeScalingHandler next scaler config defaultNamespace getServiceName
        url w r s).events).getLast? = some res)
    (hf : res.Found = false) (he : res.Error = some e) :
    statuses (MakeScalingHandler next scaler config defaultNamespace getServiceName
        url w r s).events = [404]
      ∧ bodies (MakeScalingHandler next scaler config defaultNamespace getServiceName
        url w r s).events
        = ["error finding function " ++ name ++ "." ++ namespace_ ++ ": " ++ e]
      ∧ nextCalls (MakeScalingHandler next scaler config defaultNamespace getServiceName
        url w r s).events = [] := by
  rw [run_last next scaler config defaultNamespace getServiceName url w r s name namespace_ hid]
    at hlast
  have hfinal := Option.some.inj hlast
  have hr := run_response next scaler config defaultNamespace getServiceName url w r s
    name namespace_ hid
  rw [hfinal] at hr
  rw [hr.1, hr.2.1, hr.2.2]
  simp [respond, hf, he, nextCalls_cons, statuses_cons, bodies_cons, Event.served?,
    Event.status?, Event.body?, nextCalls, statuses, bodies, errStr, StatusNotFound]

/-- C6 at a concrete input: a scaler that never finds `myfn.prod`. -/
theorem not_found_rejection_witness :
    statuses (MakeScalingHandler "next" (always notFound) ⟨10, 5000000000⟩ "default"
        afterFunctionPrefix id "w" "/function/myfn.prod" ()).events = [404]
      ∧ bodies (MakeScalingHandler "next" (always notFound) ⟨10, 5000000000⟩ "default"
        afterFunctionPrefix id "w" "/function/myfn.prod" ()).events
        = ["error finding function " ++ "myfn" ++ "." ++ "prod" ++ ": " ++ "no such function"]
      ∧ nextCalls (MakeScalingHandler "next" (always notFound) ⟨10, 5000000000⟩ "default"
        afterFunctionPrefix id "w" "/function/myfn.prod" ()).events = [] :=
  not_found_rejection "next" (always notFound) ⟨10, 5000000000⟩ "default"
    afterFunctionPrefix id "w" "/function/myfn.prod" () "myfn" "prod" notFound
    "no such function" (by decide) (by decide) (by decide) (by decide) (by decide)

/-- C7. Internal-error rejection: when the identity of the request is
`(name, namespace_)`, the loop is exhausted (ten scaler calls were made) and
the last outcome is found with the error text `e`, the handler writes status
500 once, writes the body
`"error finding function " ++ name ++ "." ++ namespace_ ++ ": " ++ e` once,
and does not invoke the downstream handler.  (The proof reads the last
outcome only; it does not use that the loop was exhausted.) -/
theorem internal_error_rejection (next : H) (scaler : FunctionScaler σ)
    (config : ScalingConfig) (defaultNamespace : String) (getServiceName : String → String)
    (url : R → String) (w : W) (r : R) (s : σ) (name namespace_ : String)
    (res : ScaleOutcome) (e : String)
    (hid : getNamespace defaultNamespace (getServiceName (url r)) = some (name, namespace_))
    (hexhausted : (outcomes (MakeScalingHandler next scaler config defaultNamespace
        getServiceName url w r s).events).length = 10)
    (hlast : (outcomes (MakeScalingHandler next scaler config defaultNamespace getServiceName
        url w r s).events).getLast? = some res)
    (hf : res.Found = true) (he : res.Error = some e) :
    statuses (MakeScalingHandler next scaler config defaultNamespace getServiceName
        url w r s).events = [500]
      ∧ bodies (MakeScalingHandler next scaler config defaultNamespace getServiceName
        url w r s).events
        = ["error finding function " ++ name ++ "." ++ namespace_ ++ ": " ++ e]
      ∧ nextCalls (MakeScalingHandler next scaler config defaultNamespace getServiceName
        url w r s).events = [] := by
  rw [run_last next scaler config defaultNamespace getServiceName url w r s name namespace_ hid]
    at hlast
  have hfinal := Option.some.inj hlast
  have hr := run_response next scaler config defaultNamespace getServiceName url w r s
    name namespace_ hid
  rw [hfinal] at hr
  rw [hr.1, hr.2.1, hr.2.2]
  simp [respond, hf, he, nextCalls_cons, statuses_cons, bodies_cons, Event.served?,
    Event.status?, Event.body?, nextCalls, statuses, bodies, errStr, StatusInternalServerError]

/-- C7 at a concrete input: a scaler whose every call fails for `myfn`, a name
without namespace, under the default namespace `default`. -/
theorem internal_error_rejection_witness :
    statuses (MakeScalingHandler "next" (always failing) ⟨10, 5000000000⟩ "default"
        afterFunctionPrefix id "w" "/function/myfn" ()).events = [500]
      ∧ bodies (MakeScalingHandler "next" (always failing) ⟨10, 5000000000⟩ "default"
        afterFunctionPrefix id "w" "/function/myfn" ()).events
        = ["error finding function " ++ "myfn" ++ "." ++ "default" ++ ": "
            ++ "scale request failed"]
      ∧ nextCalls (MakeScalingHandler "next" (always failing) ⟨10, 5000000000⟩ "default"
        afterFunctionPrefix id "w" "/function/myfn" ()).events = [] :=
  internal_error_rejection "next" (always failing) ⟨10, 5000000000⟩ "default"
    afterFunctionPrefix id "w" "/function/myfn" () "myfn" "default" failing
    "scale request failed" (by decide) (by decide) (by decide) (by decide) (by decide)

/-- C8. Timeout branch: when the loop is exhausted (ten scaler calls were
made) and the last outcome is unavailable, found and without error, the
handler returns without invoking the downstream handler, without a
`WriteHeader` and without a `Write`. -/
theorem timeout_writes_nothing (next : H) (scaler : FunctionScaler σ)
    (config : ScalingConfig) (defaultNamespace : String) (getServiceName : String → String)
    (url : R → String) (w : W) (r : R) (s : σ) (res : ScaleOutcome)
    (hexhausted : (outcomes (MakeScalingHandler next scaler config defaultNamespace
        getServiceName url w r s).events).length = 10)
    (hlast : (outcomes (MakeScalingHandler next scaler config defaultNamespace getServiceName
        url w r s).events).getLast? = some res)
    (ha : res.Available = false) (hf : res.Found = true) (he : res.Error = none) :
    nextCalls (MakeScalingHandler next scaler config defaultNamespace getServiceName
        url w r s).events = []
      ∧ statuses (MakeScalingHandler next scaler config defaultNamespace getServiceName
        url w r s).events = []
      ∧ bodies (MakeScalingHandler next scaler config defaultNamespace getServiceName
        url w r s).events = []
      ∧ (MakeScalingHandler next scaler config defaultNamespace getServiceName
        url w r s).result = Except.ok () := by
  rcases getNamespace_returns defaultNamespace (getServiceName (url r)) with ⟨fn, ns, hid⟩
  rw [run_last next scaler config defaultNamespace getServiceName url w r s fn ns hid] at hlast
  have hfinal := Option.some.inj hlast
  have hr := run_response next scaler config defaultNamespace getServiceName url w r s fn ns hid
  have he2 := (run_events next scaler config defaultNamespace getServiceName url w r s fn ns hid).2
  rw [hfinal] at hr he2
  rw [hr.1, hr.2.1, hr.2.2, he2]
  simp [respond, ha, hf, he, nextCalls_cons, statuses_cons, bodies_cons, Event.served?,
    Event.status?, Event.body?, nextCalls, statuses, bodies]

/-- C8 at a concrete input: a scaler that finds the function and never reports
it available. -/
theorem timeout_writes_nothing_witness :
    nextCalls (MakeScalingHandler "next" (always pending) ⟨10, 5000000000⟩ "default"
        afterFunctionPrefix id "w" "/function/myfn.prod" ()).events = []
      ∧ statuses (MakeScalingHandler "next" (always pending) ⟨10, 5000000000⟩ "default"
        afterFunctionPrefix id "w" "/function/myfn.prod" ()).events = []
      ∧ bodies (MakeScalingHandler "next" (always pending) ⟨10, 5000000000⟩ "default"
        afterFunctionPrefix id "w" "/function/myfn.prod" ()).events = []
      ∧ (MakeScalingHandler "next" (always pending) ⟨10, 5000000000⟩ "default"
        afterFunctionPrefix id "w" "/function/myfn.prod" ()).result = Except.ok () :=
  timeout_writes_nothing "next" (always pending) ⟨10, 5000000000⟩ "default"
    afterFunctionPrefix id "w" "/function/myfn.prod" () pending
    (by decide) (by decide) (by decide) (by decide) (by decide)

/-- C9. The downstream handler is never invoked for a function that did not
become ready: in a run where no scaler call returned an available outcome it
is not invoked; and in every run it is invoked at most once, and then with the
response writer and the request the handler received. -/
theorem next_only_when_ready (next : H) (scaler : FunctionScaler σ)
    (config : ScalingConfig) (defaultNamespace : String) (getServiceName : String → String)
    (url : R → String) (w : W) (r : R) (s : σ) :
    ((∀ o ∈ outcomes (MakeScalingHandler next scaler config defaultNamespace getServiceName
          url w r s).events, o.Available = false) →
        nextCalls (MakeScalingHandler next scaler config defaultNamespace getServiceName
          url w r s).events = [])
      ∧ (nextCalls (MakeScalingHandler next scaler config defaultNamespace getServiceName
          url w r s).events = []
        ∨ nextCalls (MakeScalingHandler next scaler config defaultNamespace getServiceName
          url w r s).events = [(next, w, r)]) := by
  rcases getNamespace_returns defaultNamespace (getServiceName (url r)) with ⟨fn, ns, hid⟩
  have hlast := run_last next scaler config defaultNamespace getServiceName url w r s fn ns hid
  have hr := run_response next scaler config defaultNamespace getServiceName url w r s fn ns hid
  have hn := respond_nextCalls next w r fn ns (finalOutcome scaler fn ns s)
  rw [hr.2.2]
  refine ⟨?_, hn.2⟩
  intro hall
  exact hn.1 (hall _ (List.mem_of_getLast?_eq_some hlast))

/-- C9 at concrete inputs: a scaler that is never available, and a scaler
that is ready on its third call. -/
theorem next_only_when_ready_witness :
    nextCalls (MakeScalingHandler "next" (always notFound) ⟨10, 5000000000⟩ "default"
        afterFunctionPrefix id "w" "/function/myfn.prod" ()).events = []
      ∧ (nextCalls (MakeScalingHandler "next" (scripted pending) ⟨10, 5000000000⟩ "default"
          afterFunctionPrefix id "w" "/function/myfn.prod" [pending, failing, ready]).events = []
        ∨ nextCalls (MakeScalingHandler "next" (scripted pending) ⟨10, 5000000000⟩ "default"
          afterFunctionPrefix id "w" "/function/myfn.prod" [pending, failing, ready]).events
          = [("next", "w", "/function/myfn.prod")]) :=
  ⟨(next_only_when_ready "next" (always notFound) ⟨10, 5000000000⟩ "default"
      afterFunctionPrefix id "w" "/function/myfn.prod" ()).1 (by decide),
    (next_only_when_ready "next" (scripted pending) ⟨10, 5000000000⟩ "default"
      afterFunctionPrefix id "w" "/function/myfn.prod" [pending, failing, ready]).2⟩

/-- C10, the code at a failing input. Against a scaler that finds the function
and never reports it available, the loop is exhausted with an unavailable last
outcome and the handler returns without any `WriteHeader`. -/
theorem timeout_has_no_status :
    (outcomes (MakeScalingHandler "next" (always pending) ⟨10, 5000000000⟩ "default"
        afterFunctionPrefix id "w" "/function/myfn" ()).events).length = 10
      ∧ (outcomes (MakeScalingHandler "next" (always pending) ⟨10, 5000000000⟩ "default"
        afterFunctionPrefix id "w" "/function/myfn" ()).events).getLast? = some pending
      ∧ pending.Available = false
      ∧ statuses (MakeScalingHandler "next" (always pending) ⟨10, 5000000000⟩ "default"
        afterFunctionPrefix id "w" "/function/myfn" ()).events = []
      ∧ (MakeScalingHandler "next" (always pending) ⟨10, 5000000000⟩ "default"
        afterFunctionPrefix id "w" "/function/myfn" ()).result = Except.ok () :=
  ⟨by decide, by decide, by decide, by decide, rfl⟩

/-- C11, the code at a failing input. Against a scaler whose outcomes are not
found and carry no error value, the handler reaches `res.Error.Error()` with a
nil `Error` and ends in the nil-dereference panic, after ten scaler calls
and without a status, a body or an invocation of the downstream handler. -/
theorem not_found_without_error_panics :
    (MakeScalingHandler "next" (always unknown) ⟨10, 5000000000⟩ "default"
        afterFunctionPrefix id "w" "/function/myfn.prod" ()).result
        = Except.error nilDereference
      ∧ outcomes (MakeScalingHandler "next" (always unknown) ⟨10, 5000000000⟩ "default"
        afterFunctionPrefix id "w" "/function/myfn.prod" ()).events
        = List.replicate 10 unknown
      ∧ statuses (MakeScalingHandler "next" (always unknown) ⟨10, 5000000000⟩ "default"
        afterFunctionPrefix id "w" "/function/myfn.prod" ()).events = []
      ∧ bodies (MakeScalingHandler "next" (always unknown) ⟨10, 5000000000⟩ "default"
        afterFunctionPrefix id "w" "/function/myfn.prod" ()).events = []
      ∧ nextCalls (MakeScalingHandler "next" (always unknown) ⟨10, 5000000000⟩ "default"
        afterFunctionPrefix id "w" "/function/myfn.prod" ()).events = [] :=
  ⟨rfl, by decide, by decide, by decide, by decide⟩

/-- C12. An available outcome is the only early exit of the loop: when the
identity of the request is `(fn, ns)` and, of the outcomes the scaler gives to
repeated calls for it, the first available one is the `k`-th with
`1 ≤ k ≤ 10`, the handler makes exactly `k` scaler calls, reading exactly the
first `k` outcomes, and sleeps exactly `k - 1` times.  Nothing is assumed about
`Found` and `Error` of the outcomes before the `k`-th. -/
theorem available_is_the_only_early_exit (next : H) (scaler : FunctionScaler σ)
    (config : ScalingConfig) (defaultNamespace : String) (getServiceName : String → String)
    (url : R → String) (w : W) (r : R) (s : σ) (fn ns : String) (k : Nat)
    (hid : getNamespace defaultNamespace (getServiceName (url r)) = some (fn, ns))
    (hk : 1 ≤ k) (hbudget : k ≤ 10)
    (hbefore : ∀ i, i < k - 1 → (nthOutcome scaler fn ns s i).Available = false)
    (hat : (nthOutcome scaler fn ns s (k - 1)).Available = true) :
    (outcomes (MakeScalingHandler next scaler config defaultNamespace getServiceName
        url w r s).events).length = k
      ∧ outcomes (MakeScalingHandler next scaler config defaultNamespace getServiceName
        url w r s).events = (List.range k).map (nthOutcome scaler fn ns s)
      ∧ sleeps (MakeScalingHandler next scaler config defaultNamespace getServiceName
        url w r s).events = List.replicate (k - 1) (Millisecond * 5000) := by
  have hout := run_until_available next scaler config defaultNamespace getServiceName url w r s
    fn ns hid (k - 1) (by omega) hbefore hat
  have hk1 : k - 1 + 1 = k := by omega
  rw [hk1] at hout
  have hlen : (outcomes (MakeScalingHandler next scaler config defaultNamespace getServiceName
      url w r s).events).length = k := by
    rw [hout]; simp
  have hc := run_calls next scaler config defaultNamespace getServiceName url w r s fn ns hid
  refine ⟨hlen, hout, ?_⟩
  rw [hc.2.2.1, hlen]

/-- C12 at a concrete input: not found on the first call, an error on the
second, ready on the third gives three calls and two sleeps. -/
theorem available_is_the_only_early_exit_witness :
    (outcomes (MakeScalingHandler "next" (scripted pending) ⟨10, 5000000000⟩ "default"
        afterFunctionPrefix id "w" "/function/myfn.prod" [notFound, failing, ready]).events).length
        = 3
      ∧ outcomes (MakeScalingHandler "next" (scripted pending) ⟨10, 5000000000⟩ "default"
        afterFunctionPrefix id "w" "/function/myfn.prod" [notFound, failing, ready]).events
        = (List.range 3).map
            (nthOutcome (scripted pending) "myfn" "prod" [notFound, failing, ready])
      ∧ sleeps (MakeScalingHandler "next" (scripted pending) ⟨10, 5000000000⟩ "default"
        afterFunctionPrefix id "w" "/function/myfn.prod" [notFound, failing, ready]).events
        = List.replicate (3 - 1) (Millisecond * 5000) :=
  available_is_the_only_early_exit "next" (scripted pending) ⟨10, 5000000000⟩ "default"
    afterFunctionPrefix id "w" "/function/myfn.prod" [notFound, failing, ready] "myfn" "prod" 3
    (by decide) (by decide) (by decide) (by decide) (by decide)

/-- C13. Every scaler call of one request, the first and every retry, is made
with the identity `getNamespace` gives for the service name of the request,
and there is at least one call. -/
theorem every_call_uses_the_identity (next : H) (scaler : FunctionScaler σ)
    (config : ScalingConfig) (defaultNamespace : String) (getServiceName : String → String)
    (url : R → String) (w : W) (r : R) (s : σ) :
    (scaleCalls (MakeScalingHandler next scaler config defaultNamespace getServiceName
        url w r s).events).map some
        = List.replicate
            (outcomes (MakeScalingHandler next scaler config defaultNamespace getServiceName
              url w r s).events).length
            (getNamespace defaultNamespace (getServiceName (url r)))
      ∧ 1 ≤ (outcomes (MakeScalingHandler next scaler config defaultNamespace getServiceName
              url w r s).events).length := by
  rcases getNamespace_returns defaultNamespace (getServiceName (url r)) with ⟨fn, ns, hid⟩
  have hc := run_calls next scaler config defaultNamespace getServiceName url w r s fn ns hid
  rw [hc.2.2.2, hid, List.map_replicate]
  exact ⟨rfl, hc.1⟩

/-- C14. The blocking of the handler is bounded by constants and not by
`config`: a run under any other configuration is the same run; a run makes
between one and ten scaler calls, sleeps once less than it calls, so at most
nine times, and every sleep is 5000 ms (5000000000 ns). -/
theorem blocking_is_bounded_by_constants (next : H) (scaler : FunctionScaler σ)
    (config config₂ : ScalingConfig) (defaultNamespace : String)
    (getServiceName : String → String) (url : R → String) (w : W) (r : R) (s : σ) :
    MakeScalingHandler next scaler config defaultNamespace getServiceName url w r s
        = MakeScalingHandler next scaler config₂ defaultNamespace getServiceName url w r s
      ∧ 1 ≤ (outcomes (MakeScalingHandler next scaler config defaultNamespace getServiceName
        url w r s).events).length
      ∧ (outcomes (MakeScalingHandler next scaler config defaultNamespace getServiceName
        url w r s).events).length ≤ 10
      ∧ (sleeps (MakeScalingHandler next scaler config defaultNamespace getServiceName
        url w r s).events).length ≤ 9
      ∧ sleeps (MakeScalingHandler next scaler config defaultNamespace getServiceName
        url w r s).events
        = List.replicate
            ((outcomes (MakeScalingHandler next scaler config defaultNamespace getServiceName
              url w r s).events).length - 1) 5000000000 := by
  rcases getNamespace_returns defaultNamespace (getServiceName (url r)) with ⟨fn, ns, hid⟩
  have hc := run_calls next scaler config defaultNamespace getServiceName url w r s fn ns hid
  have hms : Millisecond * 5000 = 5000000000 := by decide
  rw [hms] at hc
  refine ⟨rfl, hc.1, hc.2.1, ?_, hc.2.2.1⟩
  rw [hc.2.2.1, List.length_replicate]
  have := hc.2.1
  omega

/-- C15. Exact forwarding condition and exclusivity of the outcomes: in a run
that returns normally and whose last outcome is `res`, the downstream handler
is invoked (once, with the handler's writer and request) if and only if `res`
is found, without error and available; an invocation of it never comes with
a status or a body; `WriteHeader` is called at most once, with 404 exactly
when `res` is not found and with 500 exactly when `res` is found with an
error. -/
theorem forwarding_condition_and_exclusivity (next : H) (scaler : FunctionScaler σ)
    (config : ScalingConfig) (defaultNamespace : String) (getServiceName : String → String)
    (url : R → String) (w : W) (r : R) (s : σ) (res : ScaleOutcome)
    (hok : (MakeScalingHandler next scaler config defaultNamespace getServiceName
        url w r s).result = Except.ok ())
    (hlast : (outcomes (MakeScalingHandler next scaler config defaultNamespace getServiceName
        url w r s).events).getLast? = some res) :
    (nextCalls (MakeScalingHandler next scaler config defaultNamespace getServiceName
          url w r s).events = [(next, w, r)]
        ↔ (res.Found = true ∧ res.Error = none ∧ res.Available = true))
      ∧ (nextCalls (MakeScalingHandler next scaler config defaultNamespace getServiceName
          url w r s).events = []
        ∨ (nextCalls (MakeScalingHandler next scaler config defaultNamespace getServiceName
            url w r s).events = [(next, w, r)]
          ∧ statuses (MakeScalingHandler next scaler config defaultNamespace getServiceName
            url w r s).events = []
          ∧ bodies (MakeScalingHandler next scaler config defaultNamespace getServiceName
            url w r s).events = []))
      ∧ (statuses (MakeScalingHandler next scaler config defaultNamespace getServiceName
          url w r s).events).length ≤ 1
      ∧ (statuses (MakeScalingHandler next scaler config defaultNamespace getServiceName
          url w r s).events = [404] ↔ res.Found = false)
      ∧ (statuses (MakeScalingHandler next scaler config defaultNamespace getServiceName
          url w r s).events = [500] ↔ (res.Found = true ∧ res.Error ≠ none)) := by
  rcases getNamespace_returns defaultNamespace (getServiceName (url r)) with ⟨fn, ns, hid⟩
  rw [run_last next scaler config defaultNamespace getServiceName url w r s fn ns hid] at hlast
  have hfinal := Option.some.inj hlast
  have hr := run_response next scaler config defaultNamespace getServiceName url w r s fn ns hid
  have he := (run_events next scaler config defaultNamespace getServiceName url w r s fn ns hid).2
  rw [hfinal] at hr he
  rw [he] at hok
  have hc := respond_cases next w r fn ns res
  have hn := hc.2.1 hok
  rw [hr.1, hr.2.1, hr.2.2]
  exact ⟨hn.2.2, hc.2.2.1, hc.2.2.2.1, hn.1, hn.2.1⟩

/-- C15 at a concrete input: pending on the first call, ready on the second. -/
theorem forwarding_condition_and_exclusivity_witness :
    (nextCalls (MakeScalingHandler "next" (scripted pending) ⟨10, 5000000000⟩ "default"
          afterFunctionPrefix id "w" "/function/myfn.prod" [pending, ready]).events
          = [("next", "w", "/function/myfn.prod")]
        ↔ (ready.Found = true ∧ ready.Error = none ∧ ready.Available = true))
      ∧ (nextCalls (MakeScalingHandler "next" (scripted pending) ⟨10, 5000000000⟩ "default"
          afterFunctionPrefix id "w" "/function/myfn.prod" [pending, ready]).events = []
        ∨ (nextCalls (MakeScalingHandler "next" (scripted pending) ⟨10, 5000000000⟩ "default"
            afterFunctionPrefix id "w" "/function/myfn.prod" [pending, ready]).events
            = [("next", "w", "/function/myfn.prod")]
          ∧ statuses (MakeScalingHandler "next" (scripted pending) ⟨10, 5000000000⟩ "default"
            afterFunctionPrefix id "w" "/function/myfn.prod" [pending, ready]).events = []
          ∧ bodies (MakeScalingHandler "next" (scripted pending) ⟨10, 5000000000⟩ "default"
            afterFunctionPrefix id "w" "/function/myfn.prod" [pending, ready]).events = []))
      ∧ (statuses (MakeScalingHandler "next" (scripted pending) ⟨10, 5000000000⟩ "default"
          afterFunctionPrefix id "w" "/function/myfn.prod" [pending, ready]).events).length ≤ 1
      ∧ (statuses (MakeScalingHandler "next" (scripted pending) ⟨10, 5000000000⟩ "default"
          afterFunctionPrefix id "w" "/function/myfn.prod" [pending, ready]).events = [404]
        ↔ ready.Found = false)
      ∧ (statuses (MakeScalingHandler "next" (scripted pending) ⟨10, 5000000000⟩ "default"
          afterFunctionPrefix id "w" "/function/myfn.prod" [pending, ready]).events = [500]
        ↔ (ready.Found = true ∧ ready.Error ≠ none)) :=
  forwarding_condition_and_exclusivity "next" (scripted pending) ⟨10, 5000000000⟩ "default"
    afterFunctionPrefix id "w" "/function/myfn.prod" [pending, ready] ready rfl (by decide)

end Claims

/-! ## `getNamespace` on qualified and on degenerate names -/

/-- C16. `getNamespace` loses no information on a qualified name: when
`fullName` holds a `'.'` and the result is `(name, namespace_)`, then
`name ++ "." ++ namespace_` is `fullName`, `namespace_` holds no `'.'`, and
the `<name>.<namespace>` of the rejection message is `fullName`. -/
theorem getNamespace_keeps_qualified_name (defaultNamespace fullName name namespace_ : String)
    (hdot : '.' ∈ fullName.data)
    (hres : getNamespace defaultNamespace fullName = some (name, namespace_)) :
    name ++ "." ++ namespace_ = fullName
      ∧ '.' ∉ namespace_.data
      ∧ ∀ text : String, errStr name namespace_ text
          = "error finding function " ++ fullName ++ ": " ++ text := by
  rcases split_at_last '.' fullName.data hdot with ⟨pre, post, hsplit, hpost⟩
  have hfull : fullName = ⟨pre ++ '.' :: post⟩ := by
    rw [← hsplit]
  rw [hfull, getNamespace_cut defaultNamespace pre post hpost] at hres
  have hpair := Option.some.inj hres
  have hname : name = ⟨pre⟩ := (congrArg Prod.fst hpair).symm
  have hns : namespace_ = ⟨post⟩ := (congrArg Prod.snd hpair).symm
  have hjoin : name ++ "." ++ namespace_ = fullName := by
    rw [hname, hns, hfull]
    apply String.ext
    simp [String.data_append]
  refine ⟨hjoin, by rw [hns]; exact hpost, ?_⟩
  intro text
  unfold errStr
  rw [← hjoin]
  simp only [String.append_assoc]

/-- C16 at a concrete input: `a.b.c`. -/
theorem getNamespace_keeps_qualified_name_witness :
    "a.b" ++ "." ++ "c" = "a.b.c"
      ∧ '.' ∉ "c".data
      ∧ ∀ text : String, errStr "a.b" "c" text
          = "error finding function " ++ "a.b.c" ++ ": " ++ text :=
  getNamespace_keeps_qualified_name "default" "a.b.c" "a.b" "c" (by decide) (by decide)

/-- C17. `getNamespace` is total and does not apply the default to an empty
qualifier: it returns a pair for every `fullName`, no slice is out of range;
for `s ++ "."` the pair is `(s, "")`, with an empty namespace and not
`defaultNamespace`; and for `"." ++ t` with no `'.'` in `t` it is `("", t)`. -/
theorem getNamespace_total_and_empty_qualifier (defaultNamespace fullName s t : String) :
    (∃ name namespace_, getNamespace defaultNamespace fullName = some (name, namespace_))
      ∧ getNamespace defaultNamespace (s ++ ".") = some (s, "")
      ∧ ('.' ∉ t.data → getNamespace defaultNamespace ("." ++ t) = some ("", t)) := by
  refine ⟨getNamespace_returns defaultNamespace fullName, ?_, ?_⟩
  · have h : s ++ "." = ⟨s.data ++ '.' :: []⟩ := by
      apply String.ext
      simp [String.data_append]
    rw [h, getNamespace_cut defaultNamespace s.data [] (by simp)]
  · intro ht
    have h : "." ++ t = ⟨[] ++ '.' :: t.data⟩ := by
      apply String.ext
      simp [String.data_append]
    rw [h, getNamespace_cut defaultNamespace [] t.data ht]

/-- C17 at the degenerate names: the empty name, a lone `'.'`, a trailing and
a leading `'.'`. -/
theorem getNamespace_total_and_empty_qualifier_witness :
    (∃ name namespace_, getNamespace "default" "" = some (name, namespace_))
      ∧ getNamespace "default" ("myfn" ++ ".") = some ("myfn", "")
      ∧ ('.' ∉ "prod".data → getNamespace "default" ("." ++ "prod") = some ("", "prod"))
      ∧ getNamespace "default" "" = some ("", "default")
      ∧ getNamespace "default" "." = some ("", "") :=
  ⟨(getNamespace_total_and_empty_qualifier "default" "" "myfn" "prod").1,
    (getNamespace_total_and_empty_qualifier "default" "" "myfn" "prod").2.1,
    (getNamespace_total_and_empty_qualifier "default" "" "myfn" "prod").2.2,
    by decide, by decide⟩

end Scaling
